import Mathlib

/-!
# generate_primitives.cpp : motion-primitive generation for a ship model

A shallow embedding of `src/src/generate_primitives.cpp`.  The program declares
five differential states and two controls, writes down the ship dynamics,
builds an optimal control problem (OCP) on the horizon `[0, T]` with `step`
intervals, hands it to an optimisation algorithm, and exports the result.

C++ `double` values are read as elements of a linearly ordered field `α`
(the theorems take `α = ℝ`), and the three names the program takes from the C
math library (`cos`, `sin`, `M_PI`) are supplied as a record `CMath α`, so
that every definition below is computable and can be run over `ℚ`.
-/

namespace GeneratePrimitives

/-! ## Variables (source lines 26-30) -/

/-- The five differential states `x1 x2 x3 x4 w` and the two controls `u a`. -/
inductive Var where
  | x1 | x2 | x3 | x4 | w | u | a
  deriving DecidableEq

/-- One value for each of the seven variables: a query point of the model. -/
structure Point (α : Type) where
  x1 : α
  x2 : α
  x3 : α
  x4 : α
  w : α
  u : α
  a : α

/-- The names the program uses from the C math library. -/
structure CMath (α : Type) where
  cos : α → α
  sin : α → α
  M_PI : α

section Model

variable {α : Type} [LinearOrderedField α]

/-! ## Constants (source lines 32-39) -/

/-- Source line 32: `const double L = 1.0`. -/
def L : α := 1

/-- Source line 33: `const double K = 1.0`. -/
def K : α := 1

/-- Source line 34: `const double tau = 1.0`. -/
def tau : α := 1

/-- Source line 35: `const double umax = M_PI/6`. -/
def umax (m : CMath α) : α := m.M_PI / 6

/-- Source line 36: `const double wmax = 15.0`. -/
def wmax : α := 15

/-- Source line 38: `double T = 20.0`. -/
def T : α := 20

/-- Source line 39: `int step = 20`. -/
def step : Int := 20

/-! ## The differential equation (source lines 41-51) -/

/-- The way an evaluation of the model can fail. -/
inductive NumericFault where
  | divisionSingularity
  deriving DecidableEq

/-- The time derivatives of the five differential states. -/
structure StateDerivative (α : Type) where
  dx1 : α
  dx2 : α
  dx3 : α
  dx4 : α
  dw : α

/-- Division that reports a singularity instead of returning a value when the
divisor is zero. -/
def checkedDiv (x y : α) : Except NumericFault α :=
  if y = 0 then .error .divisionSingularity else .ok (x / y)

/-- Source lines 47-51: the right-hand side of the differential equation `f`,
evaluated at a point.  The quotient `1/tau` of line 50 is the only division. -/
def f (m : CMath α) (p : Point α) : Except NumericFault (StateDerivative α) := do
  let invTau ← checkedDiv 1 (tau : α)
  pure
    { dx1 := p.w * m.cos p.x3 - L * p.w * p.x4 * m.sin p.x3
      dx2 := p.w * m.sin p.x3 + L * p.w * p.x4 * m.cos p.x3
      dx3 := p.x4
      dx4 := invTau * (-p.x4 + K * p.u)
      dw := p.a }

/-! ## The optimal control problem (source lines 57-80) -/

/-- Source line 59: the expression handed to `minimizeLagrangeTerm`. -/
def lagrangeTerm (p : Point α) : α := 10 * p.x4 * p.x4 + p.a * p.a

/-- Where a boundary constraint is attached. -/
inductive Attach where
  | AT_START | AT_END
  deriving DecidableEq

/-- A boundary equality `subjectTo( point, var == value )`. -/
structure BoundaryEq (α : Type) where
  point : Attach
  var : Var
  value : α

/-- A path bound on one variable; an absent side is unbounded. -/
structure PathBound (α : Type) where
  var : Var
  lower : Option α
  upper : Option α

/-- The problem description an `OCP` object accumulates. -/
structure OCP (α : Type) where
  tStart : α
  tEnd : α
  N : Int
  lagrange : List (Point α → α)
  dynamics : List (Point α → Except NumericFault (StateDerivative α))
  boundary : List (BoundaryEq α)
  path : List (PathBound α)

/-- The constructor `OCP ocp( tStart, tEnd, N )`: nothing but the horizon. -/
def OCP.init (tStart tEnd : α) (N : Int) : OCP α :=
  { tStart := tStart, tEnd := tEnd, N := N
    lagrange := [], dynamics := [], boundary := [], path := [] }

/-- The call `ocp.minimizeLagrangeTerm( e )`. -/
def OCP.minimizeLagrangeTerm (o : OCP α) (e : Point α → α) : OCP α :=
  { o with lagrange := o.lagrange ++ [e] }

/-- The call `ocp.subjectTo( f )` with a differential equation. -/
def OCP.subjectTo (o : OCP α)
    (g : Point α → Except NumericFault (StateDerivative α)) : OCP α :=
  { o with dynamics := o.dynamics ++ [g] }

/-- The call `ocp.subjectTo( point, var == value )`. -/
def OCP.subjectToAt (o : OCP α) (point : Attach) (var : Var) (value : α) : OCP α :=
  { o with boundary := o.boundary ++ [{ point := point, var := var, value := value }] }

/-- The call `ocp.subjectTo( lower <= var <= upper )`, either side optional. -/
def OCP.subjectToBound (o : OCP α) (lower : Option α) (var : Var) (upper : Option α) :
    OCP α :=
  { o with path := o.path ++ [{ var := var, lower := lower, upper := upper }] }

/-- Source lines 57-80: the object `ocp` after the last `subjectTo` call. -/
def ocp (m : CMath α) : OCP α :=
  let o : OCP α := OCP.init 0 T step
  let o := o.minimizeLagrangeTerm lagrangeTerm
  let o := o.subjectTo (f m)
  let o := o.subjectToAt .AT_START .x1 0
  let o := o.subjectToAt .AT_START .x2 0
  let o := o.subjectToAt .AT_START .x3 0
  let o := o.subjectToAt .AT_START .x4 0
  let o := o.subjectToAt .AT_START .w 3
  let o := o.subjectToAt .AT_START .u 0
  let o := o.subjectToAt .AT_START .a 0
  let o := o.subjectToAt .AT_END .x1 50
  let o := o.subjectToAt .AT_END .x2 30
  let o := o.subjectToAt .AT_END .x4 0
  let o := o.subjectToAt .AT_END .w 3
  let o := o.subjectToAt .AT_END .u 0
  let o := o.subjectToAt .AT_END .a 0
  let o := o.subjectToBound (some (-umax m)) .u (some (umax m))
  let o := o.subjectToBound (some 0) .w (some wmax)
  let o := o.subjectToBound (some 0) .a none
  o

/-! ## What the constraints mean -/

/-- A value lies inside a path bound. -/
def PathBound.contains (b : PathBound α) (x : α) : Prop :=
  (∀ lo, b.lower = some lo → lo ≤ x) ∧ (∀ hi, b.upper = some hi → x ≤ hi)

/-- A value of variable `v` respects every path bound the problem puts on `v`. -/
def OCP.pathHolds (o : OCP α) (v : Var) (x : α) : Prop :=
  ∀ b ∈ o.path, b.var = v → b.contains x

/-- A value of variable `v` at attachment point `pt` respects every boundary
equality the problem puts on `v` there. -/
def OCP.boundaryHolds (o : OCP α) (pt : Attach) (v : Var) (x : α) : Prop :=
  ∀ c ∈ o.boundary, c.point = pt → c.var = v → x = c.value

/-- The boundary equalities on variable `v` at attachment point `pt`. -/
def OCP.pins (o : OCP α) (pt : Attach) (v : Var) : List (BoundaryEq α) :=
  o.boundary.filter (fun c => decide (c.point = pt) && decide (c.var = v))

/-- The length of one of the `N` equal intervals of the horizon. -/
def OCP.stageLength (o : OCP α) : α := (o.tEnd - o.tStart) / (o.N : α)

/-- The speed at the end of an interval of length `h` entered with speed `w0`
under the constant acceleration `acc`: the solution of line 51, `dot(w) == a`. -/
def wStageEnd (w0 acc h : α) : α := w0 + acc * h

/-! ## The plot window (source lines 86-92) -/

/-- A plot window: the titles of its subplots, in order. -/
structure GnuplotWindow where
  subplots : List String

/-- The call `window.addSubplot( ..., title, ... )`. -/
def GnuplotWindow.addSubplot (g : GnuplotWindow) (title : String) : GnuplotWindow :=
  { subplots := g.subplots ++ [title] }

/-- Source lines 86-92: the object `window`. -/
def window : GnuplotWindow :=
  let g : GnuplotWindow := { subplots := [] }
  let g := g.addSubplot "POSITION"
  let g := g.addSubplot "YAW ANGLE"
  let g := g.addSubplot "YAW RATE"
  let g := g.addSubplot "SHIP SPEED"
  let g := g.addSubplot "RUDDER CONTROL"
  let g := g.addSubplot "ACCELERATION CONTROL"
  g

/-! ## The optimisation algorithm and the program (source lines 98-112) -/

/-- The status a solve ends with (spec, sections 4.6 and 6). -/
inductive SolveStatus where
  | Converged | MaxIterationsReached | Failed
  deriving DecidableEq

/-- The option names the program sets. -/
inductive OptionName where
  | MAX_NUM_ITERATIONS
  deriving DecidableEq

/-- The two export calls of the program. -/
inductive Export where
  | differentialStates (file : String)
  | controls (file : String)
  deriving DecidableEq

/-- The state of the `OptimizationAlgorithm` object as the program drives it:
the problem, the iteration cap set so far (`none` until the program sets one),
the attached windows, the cap in force at each `solve()` call, the status the
last solve ended with, and the export calls issued. -/
structure OptimizationAlgorithm (α : Type) where
  problem : OCP α
  maxNumIterations : Option Int
  windows : List GnuplotWindow
  solveCaps : List (Option Int)
  status : Option SolveStatus
  exports : List Export

/-- The constructor `OptimizationAlgorithm algorithm(ocp)`. -/
def OptimizationAlgorithm.init (o : OCP α) : OptimizationAlgorithm α :=
  { problem := o, maxNumIterations := none, windows := [], solveCaps := []
    status := none, exports := [] }

/-- The call `algorithm.set( name, value )`. -/
def OptimizationAlgorithm.set (g : OptimizationAlgorithm α) (name : OptionName)
    (value : Int) : OptimizationAlgorithm α :=
  match name with
  | .MAX_NUM_ITERATIONS => { g with maxNumIterations := some value }

/-- The statement `algorithm << window`. -/
def OptimizationAlgorithm.addWindow (g : OptimizationAlgorithm α) (w : GnuplotWindow) :
    OptimizationAlgorithm α :=
  { g with windows := g.windows ++ [w] }

/-- The call `algorithm.solve()`: it runs under the cap set so far and ends with
the status `outcome` the solver reaches. -/
def OptimizationAlgorithm.solve (g : OptimizationAlgorithm α) (outcome : SolveStatus) :
    OptimizationAlgorithm α :=
  { g with solveCaps := g.solveCaps ++ [g.maxNumIterations], status := some outcome }

/-- The call `algorithm.getDifferentialStates( file )`. -/
def OptimizationAlgorithm.getDifferentialStates (g : OptimizationAlgorithm α)
    (file : String) : OptimizationAlgorithm α :=
  { g with exports := g.exports ++ [.differentialStates file] }

/-- The call `algorithm.getControls( file )`. -/
def OptimizationAlgorithm.getControls (g : OptimizationAlgorithm α) (file : String) :
    OptimizationAlgorithm α :=
  { g with exports := g.exports ++ [.controls file] }

/-- Source lines 18-113: `main`, given the status `outcome` its one call of
`solve()` ends with.  The result is the final state of `algorithm` and the exit
code.  The value `solve()` returns is not looked at (line 102). -/
def main (m : CMath α) (outcome : SolveStatus) : OptimizationAlgorithm α × Int :=
  let algorithm : OptimizationAlgorithm α := OptimizationAlgorithm.init (ocp m)
  let algorithm := algorithm.set .MAX_NUM_ITERATIONS 20
  let algorithm := algorithm.addWindow window
  let algorithm := algorithm.solve outcome
  let algorithm := algorithm.getDifferentialStates "primitive_states.txt"
  let algorithm := algorithm.getControls "primitive_controls.txt"
  (algorithm, 0)

/-! ## The shooting grid and the exported trajectories -/

/-- Modelled from the spec: the Stage of section 3.  The discretisation lives
in the ACADO library and is missing from the source; a stage owns its start
values of the five differential states and its values of the two controls
(the fields `x1 x2 x3 x4 w` and `u a` of a point). -/
structure Stage (α : Type) where
  vars : Point α

/-- Modelled from the spec: the Trajectory Iterate of section 3, the stage
variables one after the other, and the end state of the last stage, which
section 4.3 makes a decision variable of its own. -/
structure TrajectoryIterate (α : Type) where
  stages : List (Stage α)
  endState : Point α

/-- Modelled from the spec: the Shooting Discretizer of section 4.3 makes `N`
stages over the horizon; the initial guess is all zeros (section 4.6). -/
def discretize (o : OCP α) : TrajectoryIterate α :=
  { stages := List.replicate o.N.toNat { vars := ⟨0, 0, 0, 0, 0, 0, 0⟩ }
    endState := ⟨0, 0, 0, 0, 0, 0, 0⟩ }

/-- Modelled from the spec: the time of grid point `i` of the shooting grid. -/
def gridTime (o : OCP α) (i : Nat) : α := o.tStart + (i : α) * o.stageLength

/-- Modelled from the spec: the Solution Extractor of section 4.7 for the
differential states, one `(time, x1, x2, x3, x4, w)` sample for the start of
each stage and one for the end of the last stage. -/
def extractDifferentialStates (o : OCP α) (it : TrajectoryIterate α) :
    List (α × α × α × α × α × α) :=
  ((it.stages.map (fun s => s.vars) ++ [it.endState]).enum).map
    (fun ip => (gridTime o ip.1, ip.2.x1, ip.2.x2, ip.2.x3, ip.2.x4, ip.2.w))

/-- Modelled from the spec: the Solution Extractor of section 4.7 for the
controls, one `(time, u, a)` sample for each stage. -/
def extractControls (o : OCP α) (it : TrajectoryIterate α) : List (α × α × α) :=
  ((it.stages.map (fun s => s.vars)).enum).map
    (fun ip => (gridTime o ip.1, ip.2.u, ip.2.a))

/-- Modelled from the spec: what one outer iteration of the SQP Driver of
section 4.6 puts into the trajectory iterate.  The driver is ACADO library code
missing from the source; the new value of each stage and of the end state may
depend in any way on the whole current iterate. -/
structure SqpUpdate (α : Type) where
  stageVars : TrajectoryIterate α → Nat → Point α
  endState : TrajectoryIterate α → Point α

/-- Modelled from the spec: one outer iteration updates the iterate in place;
the iterate keeps its dimension across iterations (section 3). -/
def sqpIterate (upd : SqpUpdate α) (it : TrajectoryIterate α) : TrajectoryIterate α :=
  { stages := (List.range it.stages.length).map (fun i => { vars := upd.stageVars it i })
    endState := upd.endState it }

/-- Modelled from the spec: the iterate after `k` outer iterations on the
discretised problem (section 4.6: initialise, then iterate). -/
def solveIterate (o : OCP α) (upd : SqpUpdate α) : Nat → TrajectoryIterate α
  | 0 => discretize o
  | k + 1 => sqpIterate upd (solveIterate o upd k)

/-- Modelled from the spec: the usable trajectory an algorithm object holds
(section 4.6).  A solve that ended `Converged` or `MaxIterationsReached` leaves
its last iterate as a usable trajectory; before any solve, and after a solve
that ended `Failed`, the spec names no usable trajectory. -/
def OptimizationAlgorithm.usableIterate (g : OptimizationAlgorithm α) (upd : SqpUpdate α)
    (k : Nat) : Option (TrajectoryIterate α) :=
  match g.status with
  | some .Converged => some (solveIterate g.problem upd k)
  | some .MaxIterationsReached => some (solveIterate g.problem upd k)
  | some .Failed => none
  | none => none

/-- A sampled trajectory as an export call hands it to its file. -/
inductive Trajectory (α : Type) where
  | differentialStates (samples : List (α × α × α × α × α × α))
  | controls (samples : List (α × α × α))

/-- The file an export call names. -/
def Export.file : Export → String
  | .differentialStates file => file
  | .controls file => file

/-- Modelled from the spec: the trajectory an export call samples from an
iterate of problem `o` (section 4.7): `getDifferentialStates` the states,
`getControls` the controls. -/
def Export.sample (o : OCP α) (it : TrajectoryIterate α) : Export → Trajectory α
  | .differentialStates _ => .differentialStates (extractDifferentialStates o it)
  | .controls _ => .controls (extractControls o it)

/-- Modelled from the spec: what the export calls issued on an algorithm object
export, call by call: the file named and the trajectory sampled from the usable
iterate of the object, when it has one.  `upd` and `k` are the behaviour of the
solver: its update and the number of outer iterations it ran. -/
def OptimizationAlgorithm.exported (g : OptimizationAlgorithm α) (upd : SqpUpdate α)
    (k : Nat) : List (String × Option (Trajectory α)) :=
  g.exports.map
    (fun e => (e.file, (g.usableIterate upd k).map (fun it => e.sample g.problem it)))

end Model

/-! ## Theorems -/

/-- C1: the problem `main` builds has horizon `[0, 20]` with 20 intervals, the
seven start equalities `(x1, x2, x3, x4, w, u, a) = (0, 0, 0, 0, 3, 0, 0)`, the
six end equalities `x1 = 50, x2 = 30, x4 = 0, w = 3, u = 0, a = 0` and no end
equality on `x3`, the single Lagrange integrand `10*x4^2 + a^2`, and the path
bounds `-pi/6 <= u <= pi/6`, `0 <= w <= 15`, `a >= 0`, with nothing else. -/
theorem ocp_is_boundary_value_scenario :
    (ocp (CMath.mk Real.cos Real.sin Real.pi)).tStart = 0 ∧
    (ocp (CMath.mk Real.cos Real.sin Real.pi)).tEnd = 20 ∧
    (ocp (CMath.mk Real.cos Real.sin Real.pi)).N = 20 ∧
    (ocp (CMath.mk Real.cos Real.sin Real.pi)).dynamics =
      [f (CMath.mk Real.cos Real.sin Real.pi)] ∧
    (ocp (CMath.mk Real.cos Real.sin Real.pi)).boundary =
      [⟨.AT_START, .x1, 0⟩, ⟨.AT_START, .x2, 0⟩, ⟨.AT_START, .x3, 0⟩,
       ⟨.AT_START, .x4, 0⟩, ⟨.AT_START, .w, 3⟩, ⟨.AT_START, .u, 0⟩,
       ⟨.AT_START, .a, 0⟩,
       ⟨.AT_END, .x1, 50⟩, ⟨.AT_END, .x2, 30⟩, ⟨.AT_END, .x4, 0⟩,
       ⟨.AT_END, .w, 3⟩, ⟨.AT_END, .u, 0⟩, ⟨.AT_END, .a, 0⟩] ∧
    (ocp (CMath.mk Real.cos Real.sin Real.pi)).pins .AT_END .x3 = [] ∧
    (∀ p : Point ℝ,
      (ocp (CMath.mk Real.cos Real.sin Real.pi)).lagrange.map (fun g => g p) =
        [10 * p.x4 ^ 2 + p.a ^ 2]) ∧
    (ocp (CMath.mk Real.cos Real.sin Real.pi)).path =
      [⟨.u, some (-(Real.pi / 6)), some (Real.pi / 6)⟩,
       ⟨.w, some 0, some 15⟩,
       ⟨.a, some 0, none⟩] := by
  refine ⟨rfl, rfl, rfl, rfl, rfl, ?_, ?_, rfl⟩
  · simp [OCP.pins, ocp, OCP.init, OCP.minimizeLagrangeTerm, OCP.subjectTo,
      OCP.subjectToAt, OCP.subjectToBound]
  · intro p
    simp [ocp, OCP.init, OCP.minimizeLagrangeTerm, OCP.subjectTo, OCP.subjectToAt,
      OCP.subjectToBound, lagrangeTerm]
    ring

/-- The iterate of a solve has one stage per interval of the horizon, however
many outer iterations the solver ran and whatever its updates were. -/
theorem solveIterate_stage_count (o : OCP ℝ) (upd : SqpUpdate ℝ) (k : Nat) :
    (solveIterate o upd k).stages.length = o.N.toNat := by
  induction k with
  | zero => simp [solveIterate, discretize]
  | succ k ih => simp [solveIterate, sqpIterate, ih]

/-- C2: when the one solve of `main` ends with a usable status, then whatever
the solver did (its updates and its number of outer iterations) the two export
calls of `main` export, to `primitive_states.txt`, a differential-state
trajectory of exactly 21 samples, and to `primitive_controls.txt`, a control
trajectory of exactly 20 samples, sampled from the iterate of the problem
`main` built. -/
theorem export_sample_counts (m : CMath ℝ) (outcome : SolveStatus) (upd : SqpUpdate ℝ)
    (k : Nat) (husable : outcome = .Converged ∨ outcome = .MaxIterationsReached) :
    ∃ (xs : List (ℝ × ℝ × ℝ × ℝ × ℝ × ℝ)) (us : List (ℝ × ℝ × ℝ)),
      (main m outcome).1.exported upd k =
        [("primitive_states.txt", some (.differentialStates xs)),
         ("primitive_controls.txt", some (.controls us))] ∧
      xs = extractDifferentialStates (ocp m) (solveIterate (ocp m) upd k) ∧
      us = extractControls (ocp m) (solveIterate (ocp m) upd k) ∧
      xs.length = 21 ∧ us.length = 20 := by
  have hlen : (solveIterate (ocp m) upd k).stages.length = 20 :=
    solveIterate_stage_count (ocp m) upd k
  refine ⟨_, _, ?_, rfl, rfl, ?_, ?_⟩
  · rcases husable with h | h <;> subst h <;> rfl
  · simp [extractDifferentialStates, hlen]
  · simp [extractControls, hlen]

/-- Witness of C2: a solve that ends `Converged` after one outer iteration of
a solver that sets every stage to the start values of the problem. -/
theorem export_sample_counts_witness :
    (SolveStatus.Converged = .Converged ∨ SolveStatus.Converged = .MaxIterationsReached) ∧
    ∃ (xs : List (ℝ × ℝ × ℝ × ℝ × ℝ × ℝ)) (us : List (ℝ × ℝ × ℝ)),
      (main (CMath.mk Real.cos Real.sin Real.pi) .Converged).1.exported
          ⟨fun _ _ => ⟨0, 0, 0, 0, 3, 0, 0⟩, fun _ => ⟨0, 0, 0, 0, 3, 0, 0⟩⟩ 1 =
        [("primitive_states.txt", some (.differentialStates xs)),
         ("primitive_controls.txt", some (.controls us))] ∧
      xs = extractDifferentialStates (ocp (CMath.mk Real.cos Real.sin Real.pi))
        (solveIterate (ocp (CMath.mk Real.cos Real.sin Real.pi))
          ⟨fun _ _ => ⟨0, 0, 0, 0, 3, 0, 0⟩, fun _ => ⟨0, 0, 0, 0, 3, 0, 0⟩⟩ 1) ∧
      us = extractControls (ocp (CMath.mk Real.cos Real.sin Real.pi))
        (solveIterate (ocp (CMath.mk Real.cos Real.sin Real.pi))
          ⟨fun _ _ => ⟨0, 0, 0, 0, 3, 0, 0⟩, fun _ => ⟨0, 0, 0, 0, 3, 0, 0⟩⟩ 1) ∧
      xs.length = 21 ∧ us.length = 20 :=
  ⟨Or.inl rfl,
   export_sample_counts (CMath.mk Real.cos Real.sin Real.pi) .Converged
     ⟨fun _ _ => ⟨0, 0, 0, 0, 3, 0, 0⟩, fun _ => ⟨0, 0, 0, 0, 3, 0, 0⟩⟩ 1 (Or.inl rfl)⟩

/-- C3 as stated fails: when the solve ends `Failed`, `main` still issues both
export calls and returns exit code 0. -/
theorem main_failed_solve_still_exports :
    (main (CMath.mk Real.cos Real.sin Real.pi) .Failed).1.status = some .Failed ∧
    (main (CMath.mk Real.cos Real.sin Real.pi) .Failed).1.exports =
      [.differentialStates "primitive_states.txt", .controls "primitive_controls.txt"] ∧
    (main (CMath.mk Real.cos Real.sin Real.pi) .Failed).2 = 0 ∧
    ¬ (∀ outcome : SolveStatus,
        ((main (CMath.mk Real.cos Real.sin Real.pi) outcome).1.exports ≠ [] ∧
          (main (CMath.mk Real.cos Real.sin Real.pi) outcome).2 = 0) →
        (outcome = .Converged ∨ outcome = .MaxIterationsReached)) := by
  refine ⟨rfl, rfl, rfl, ?_⟩
  intro h
  have h1 := h .Failed ⟨by simp [main, OptimizationAlgorithm.getControls], rfl⟩
  rcases h1 with h1 | h1 <;> cases h1

/-- C3 amended: whatever status the solve ends with, `main` does not look at
it: it issues the two export calls, states first and controls second, and
returns exit code 0. -/
theorem main_exports_whatever_the_status (m : CMath ℝ) (outcome : SolveStatus) :
    (main m outcome).1.status = some outcome ∧
    (main m outcome).1.exports =
      [.differentialStates "primitive_states.txt", .controls "primitive_controls.txt"] ∧
    (main m outcome).2 = 0 :=
  ⟨rfl, rfl, rfl⟩

/-- C5: the problem `main` builds has `N >= 1` and `end > start`, pins no
variable to two different constants at the same attachment point, and pins
each variable at most once at the start and at most once at the end. -/
theorem ocp_not_malformed (m : CMath ℝ) :
    1 ≤ (ocp m).N ∧ (ocp m).tStart < (ocp m).tEnd ∧
    (ocp m).N = 20 ∧ (ocp m).tStart = 0 ∧ (ocp m).tEnd = 20 ∧
    (∀ c ∈ (ocp m).boundary, ∀ d ∈ (ocp m).boundary,
      c.point = d.point → c.var = d.var → c.value = d.value) ∧
    (∀ (pt : Attach) (v : Var), ((ocp m).pins pt v).length ≤ 1) := by
  have hb : (ocp m).boundary =
      [⟨.AT_START, .x1, 0⟩, ⟨.AT_START, .x2, 0⟩, ⟨.AT_START, .x3, 0⟩,
       ⟨.AT_START, .x4, 0⟩, ⟨.AT_START, .w, 3⟩, ⟨.AT_START, .u, 0⟩,
       ⟨.AT_START, .a, 0⟩,
       ⟨.AT_END, .x1, 50⟩, ⟨.AT_END, .x2, 30⟩, ⟨.AT_END, .x4, 0⟩,
       ⟨.AT_END, .w, 3⟩, ⟨.AT_END, .u, 0⟩, ⟨.AT_END, .a, 0⟩] := rfl
  refine ⟨?_, ?_, rfl, rfl, rfl, ?_, ?_⟩
  · show (1 : Int) ≤ 20
    decide
  · show (0 : ℝ) < T
    norm_num [T]
  · intro c hc d hd hp hv
    rw [hb] at hc hd
    simp only [List.mem_cons, List.mem_singleton, List.not_mem_nil, or_false] at hc hd
    rcases hc with h | h | h | h | h | h | h | h | h | h | h | h | h <;>
      rcases hd with h2 | h2 | h2 | h2 | h2 | h2 | h2 | h2 | h2 | h2 | h2 | h2 | h2 <;>
      subst h <;> subst h2 <;> first | rfl | (exact absurd hp (by decide)) | (exact absurd hv (by decide))
  · intro pt v
    unfold OCP.pins
    rw [hb]
    cases pt <;> cases v <;> simp [List.filter]

/-- C7: whatever the solve does, `main` starts exactly one solve, and that
solve runs under the iteration cap 20, a positive number, which `main` has set
before the call. -/
theorem solve_runs_under_iteration_cap (m : CMath ℝ) (outcome : SolveStatus) :
    (main m outcome).1.solveCaps = [some 20] ∧ (0 : Int) < 20 ∧
    (((OptimizationAlgorithm.init (ocp m)).set .MAX_NUM_ITERATIONS 20).addWindow
        window).maxNumIterations = some 20 ∧
    (main m outcome).1.maxNumIterations = some 20 :=
  ⟨rfl, by decide, rfl, rfl⟩

/-- C10: every value a boundary equality of the problem pins lies inside every
path bound the problem puts on the same variable. -/
theorem pinned_values_inside_path_bounds
    (c : BoundaryEq ℝ) (hc : c ∈ (ocp (CMath.mk Real.cos Real.sin Real.pi)).boundary)
    (b : PathBound ℝ) (hb : b ∈ (ocp (CMath.mk Real.cos Real.sin Real.pi)).path)
    (hv : b.var = c.var) : b.contains c.value := by
  have hpi : (0 : ℝ) < Real.pi := Real.pi_pos
  have hB : (ocp (CMath.mk Real.cos Real.sin Real.pi)).boundary =
      [⟨.AT_START, .x1, 0⟩, ⟨.AT_START, .x2, 0⟩, ⟨.AT_START, .x3, 0⟩,
       ⟨.AT_START, .x4, 0⟩, ⟨.AT_START, .w, 3⟩, ⟨.AT_START, .u, 0⟩,
       ⟨.AT_START, .a, 0⟩,
       ⟨.AT_END, .x1, 50⟩, ⟨.AT_END, .x2, 30⟩, ⟨.AT_END, .x4, 0⟩,
       ⟨.AT_END, .w, 3⟩, ⟨.AT_END, .u, 0⟩, ⟨.AT_END, .a, 0⟩] := rfl
  have hP : (ocp (CMath.mk Real.cos Real.sin Real.pi)).path =
      [⟨.u, some (-(Real.pi / 6)), some (Real.pi / 6)⟩,
       ⟨.w, some 0, some 15⟩,
       ⟨.a, some 0, none⟩] := rfl
  rw [hB] at hc
  rw [hP] at hb
  simp only [List.mem_cons, List.mem_singleton, List.not_mem_nil, or_false] at hc hb
  rcases hb with h | h | h <;>
    rcases hc with h2 | h2 | h2 | h2 | h2 | h2 | h2 | h2 | h2 | h2 | h2 | h2 | h2 <;>
    subst h <;> subst h2 <;>
    first
      | (exact absurd hv (by decide))
      | (constructor <;> intro x hx <;> simp at hx <;> subst hx <;> norm_num <;> linarith)

/-- Witness of C10: the start speed 3 lies inside the speed bound `[0, 15]`. -/
theorem pinned_values_inside_path_bounds_witness :
    (PathBound.mk Var.w (some (0 : ℝ)) (some 15)).contains 3 :=
  pinned_values_inside_path_bounds ⟨.AT_START, .w, 3⟩
    (by simp [ocp, OCP.init, OCP.minimizeLagrangeTerm, OCP.subjectTo, OCP.subjectToAt,
      OCP.subjectToBound])
    ⟨.w, some 0, some 15⟩
    (by simp [ocp, OCP.init, OCP.minimizeLagrangeTerm, OCP.subjectTo, OCP.subjectToAt,
      OCP.subjectToBound, wmax])
    rfl

/-- C4: the Lagrange integrand of `main` depends on `x4` and `a` only, equals
`10*x4^2 + a^2`, and as a function of `(x4, a)` it is twice continuously
differentiable on the whole real plane, hence at every point of it. -/
theorem lagrangeTerm_twice_continuously_differentiable (p : Point ℝ) :
    (∀ x4 a : ℝ, lagrangeTerm { p with x4 := x4, a := a } = 10 * x4 ^ 2 + a ^ 2) ∧
    ContDiff ℝ 2 (fun q : ℝ × ℝ => lagrangeTerm { p with x4 := q.1, a := q.2 }) ∧
    (∀ q0 : ℝ × ℝ,
      ContDiffAt ℝ 2 (fun q : ℝ × ℝ => lagrangeTerm { p with x4 := q.1, a := q.2 }) q0) := by
  have hC : ContDiff ℝ 2 (fun q : ℝ × ℝ => lagrangeTerm { p with x4 := q.1, a := q.2 }) := by
    show ContDiff ℝ 2 (fun q : ℝ × ℝ => 10 * q.1 * q.1 + q.2 * q.2)
    exact ((contDiff_const.mul contDiff_fst).mul contDiff_fst).add
      (contDiff_snd.mul contDiff_snd)
  refine ⟨?_, hC, fun q0 => hC.contDiffAt⟩
  intro x4 a
  simp only [lagrangeTerm]
  ring

/-- C6: the quotient `1/tau` of the model is a division by the non-zero
constant 1, so at every real point the right-hand side is defined and equals
the stated expressions; it never raises a numeric fault, and its value is a
function of the point alone. -/
theorem f_total_and_deterministic :
    (tau : ℝ) = 1 ∧ (tau : ℝ) ≠ 0 ∧
    checkedDiv (1 : ℝ) tau = .ok (1 / tau) ∧
    (∀ p : Point ℝ, f (CMath.mk Real.cos Real.sin Real.pi) p =
      .ok { dx1 := p.w * Real.cos p.x3 - L * p.w * p.x4 * Real.sin p.x3
            dx2 := p.w * Real.sin p.x3 + L * p.w * p.x4 * Real.cos p.x3
            dx3 := p.x4
            dx4 := 1 / tau * (-p.x4 + K * p.u)
            dw := p.a }) ∧
    (∀ (p : Point ℝ) (e : NumericFault),
      f (CMath.mk Real.cos Real.sin Real.pi) p ≠ .error e) ∧
    (∃ g : Point ℝ → StateDerivative ℝ,
      ∀ p : Point ℝ, f (CMath.mk Real.cos Real.sin Real.pi) p = .ok (g p)) := by
  have hdiv : checkedDiv (1 : ℝ) tau = .ok (1 / tau) := by
    simp [checkedDiv, tau]
  have hf : ∀ p : Point ℝ, f (CMath.mk Real.cos Real.sin Real.pi) p =
      .ok { dx1 := p.w * Real.cos p.x3 - L * p.w * p.x4 * Real.sin p.x3
            dx2 := p.w * Real.sin p.x3 + L * p.w * p.x4 * Real.cos p.x3
            dx3 := p.x4
            dx4 := 1 / tau * (-p.x4 + K * p.u)
            dw := p.a } := by
    intro p
    simp only [f, hdiv]
    rfl
  refine ⟨rfl, by simp [tau], hdiv, hf, ?_, ⟨_, hf⟩⟩
  intro p e h
  rw [hf p] at h
  cases h

/-- The stage-end speed `wStageEnd w0 acc` solves line 51 of the model: its
derivative in the interval length is the `dw` component of `f` at any point
whose acceleration is `acc`. -/
theorem wStageEnd_solves_model (p : Point ℝ) (w0 t : ℝ) :
    ∃ d, f (CMath.mk Real.cos Real.sin Real.pi) p = .ok d ∧
      wStageEnd w0 p.a 0 = w0 ∧
      HasDerivAt (fun h => wStageEnd w0 p.a h) d.dw t := by
  refine ⟨_, by simp only [f, checkedDiv, tau, one_ne_zero, if_false]; rfl, by simp [wStageEnd], ?_⟩
  simpa [wStageEnd] using ((hasDerivAt_id t).const_mul p.a).const_add w0

/-- A sequence whose steps are non-negative up to index `n` does not decrease
up to index `n`. -/
theorem speed_monotone (w acc : ℕ → ℝ) (n : ℕ) (hacc : ∀ i < n, 0 ≤ acc i)
    (hstep : ∀ i < n, w (i + 1) = w i + acc i) :
    ∀ i j, i ≤ j → j ≤ n → w i ≤ w j := by
  intro i j hij
  induction j, hij using Nat.le_induction with
  | base => intro _; exact le_refl _
  | succ k _ ih =>
    intro hk
    have h1 := ih (Nat.le_of_succ_le hk)
    have h2 := hstep k hk
    have h3 := hacc k hk
    linarith

/-- C8: on the 20 stages of length `T/step = 1` of the problem `main` builds,
if the stage accelerations respect the path bound on `a`, the speed starts at
the value pinned at the start, moves by `w + a * 1` over each stage and
ends at the value pinned at the end, then every stage acceleration is 0 and
the speed is 3 at every grid point. -/
theorem acceleration_zero_speed_three (acc w : ℕ → ℝ)
    (hpath : ∀ i < (ocp (CMath.mk Real.cos Real.sin Real.pi)).N.toNat,
      (ocp (CMath.mk Real.cos Real.sin Real.pi)).pathHolds .a (acc i))
    (hstart : (ocp (CMath.mk Real.cos Real.sin Real.pi)).boundaryHolds .AT_START .w (w 0))
    (hstep : ∀ i < (ocp (CMath.mk Real.cos Real.sin Real.pi)).N.toNat,
      w (i + 1) = wStageEnd (w i) (acc i)
        (ocp (CMath.mk Real.cos Real.sin Real.pi)).stageLength)
    (hend : (ocp (CMath.mk Real.cos Real.sin Real.pi)).boundaryHolds .AT_END .w
      (w (ocp (CMath.mk Real.cos Real.sin Real.pi)).N.toNat)) :
    (ocp (CMath.mk Real.cos Real.sin Real.pi)).N.toNat = 20 ∧
    (ocp (CMath.mk Real.cos Real.sin Real.pi)).stageLength = 1 ∧
    (∀ i < 20, acc i = 0) ∧ (∀ i ≤ 20, w i = 3) := by
  have hN : (ocp (CMath.mk Real.cos Real.sin Real.pi)).N.toNat = 20 := rfl
  have hlen : (ocp (CMath.mk Real.cos Real.sin Real.pi)).stageLength = 1 := by
    show ((T : ℝ) - 0) / ((step : Int) : ℝ) = 1
    norm_num [T, step]
  rw [hN] at hpath hstep hend
  have hacc : ∀ i < 20, 0 ≤ acc i := by
    intro i hi
    exact (hpath i hi ⟨.a, some 0, none⟩
      (by simp [ocp, OCP.init, OCP.minimizeLagrangeTerm, OCP.subjectTo, OCP.subjectToAt,
        OCP.subjectToBound]) rfl).1 0 rfl
  have hs : ∀ i < 20, w (i + 1) = w i + acc i := by
    intro i hi
    have h := hstep i hi
    rw [hlen] at h
    simpa [wStageEnd] using h
  have h0 : w 0 = 3 :=
    hstart ⟨.AT_START, .w, 3⟩
      (by simp [ocp, OCP.init, OCP.minimizeLagrangeTerm, OCP.subjectTo, OCP.subjectToAt,
        OCP.subjectToBound]) rfl rfl
  have h20 : w 20 = 3 :=
    hend ⟨.AT_END, .w, 3⟩
      (by simp [ocp, OCP.init, OCP.minimizeLagrangeTerm, OCP.subjectTo, OCP.subjectToAt,
        OCP.subjectToBound]) rfl rfl
  have hmono := speed_monotone w acc 20 hacc hs
  have hw : ∀ i ≤ 20, w i = 3 := by
    intro i hi
    have hlo := hmono 0 i (Nat.zero_le i) hi
    have hhi := hmono i 20 hi (le_refl 20)
    linarith
  refine ⟨hN, hlen, ?_, hw⟩
  intro i hi
  have h1 := hs i hi
  have h2 := hw i (Nat.le_of_lt hi)
  have h3 := hw (i + 1) hi
  linarith

/-- Witness of C8: zero acceleration and constant speed 3 on every stage. -/
theorem acceleration_zero_speed_three_witness :
    (ocp (CMath.mk Real.cos Real.sin Real.pi)).N.toNat = 20 ∧
    (ocp (CMath.mk Real.cos Real.sin Real.pi)).stageLength = 1 ∧
    (∀ i < 20, (fun _ : ℕ => (0 : ℝ)) i = 0) ∧ (∀ i ≤ 20, (fun _ : ℕ => (3 : ℝ)) i = 3) :=
  acceleration_zero_speed_three (fun _ => 0) (fun _ => 3)
    (by
      intro i _ b hb hv
      simp [ocp, OCP.init, OCP.minimizeLagrangeTerm, OCP.subjectTo, OCP.subjectToAt,
        OCP.subjectToBound] at hb
      rcases hb with h | h | h <;> subst h
      · exact absurd hv (by decide)
      · exact absurd hv (by decide)
      · constructor <;> intro x hx <;> simp at hx
        subst hx
        exact le_refl _)
    (by
      intro c hc hp hv
      simp [ocp, OCP.init, OCP.minimizeLagrangeTerm, OCP.subjectTo, OCP.subjectToAt,
        OCP.subjectToBound] at hc
      rcases hc with h | h | h | h | h | h | h | h | h | h | h | h | h <;> subst h <;>
        first | rfl | (exact absurd hv (by decide)))
    (by
      intro i _
      simp [wStageEnd])
    (by
      intro c hc hp hv
      simp [ocp, OCP.init, OCP.minimizeLagrangeTerm, OCP.subjectTo, OCP.subjectToAt,
        OCP.subjectToBound] at hc
      rcases hc with h | h | h | h | h | h | h | h | h | h | h | h | h <;> subst h <;>
        first | rfl | (exact absurd hv (by decide)))

/-- C9: at every real point the position rates of the model satisfy
`(dot x1)^2 + (dot x2)^2 = w^2 * (1 + L^2 * x4^2)` with `L = 1`, whatever the
yaw angle `x3`, so the planar speed is at least `|w|`. -/
theorem planar_speed_identity (p : Point ℝ) :
    ∃ d : StateDerivative ℝ, f (CMath.mk Real.cos Real.sin Real.pi) p = .ok d ∧
      (L : ℝ) = 1 ∧
      d.dx1 ^ 2 + d.dx2 ^ 2 = p.w ^ 2 * (1 + L ^ 2 * p.x4 ^ 2) ∧
      |p.w| ≤ Real.sqrt (d.dx1 ^ 2 + d.dx2 ^ 2) := by
  have hid : (p.w * Real.cos p.x3 - L * p.w * p.x4 * Real.sin p.x3) ^ 2 +
      (p.w * Real.sin p.x3 + L * p.w * p.x4 * Real.cos p.x3) ^ 2 =
      p.w ^ 2 * (1 + L ^ 2 * p.x4 ^ 2) := by
    simp only [L]
    linear_combination (p.w ^ 2 + p.w ^ 2 * p.x4 ^ 2) * Real.cos_sq_add_sin_sq p.x3
  refine ⟨_, by simp only [f, checkedDiv, tau, one_ne_zero, if_false]; rfl, rfl, hid, ?_⟩
  show |p.w| ≤ Real.sqrt ((p.w * Real.cos p.x3 - L * p.w * p.x4 * Real.sin p.x3) ^ 2 +
      (p.w * Real.sin p.x3 + L * p.w * p.x4 * Real.cos p.x3) ^ 2)
  rw [hid, ← Real.sqrt_sq_eq_abs]
  apply Real.sqrt_le_sqrt
  have h1 : 0 ≤ p.w ^ 2 * ((L : ℝ) ^ 2 * p.x4 ^ 2) := by positivity
  nlinarith

end GeneratePrimitives
